import Mathlib

/-!
# StarRocks backend: text conversion, distinct blocking sink, exclusive_ptr

A shallow embedding of three pieces of the backend:

* `TextConverter::write_slot` (`be/src/exec/text_converter.hpp`),
* `AggregateDistinctBlockingSinkOperator` and its factory
  (`be/src/exec/pipeline/aggregate/aggregate_distinct_blocking_sink_operator.h`),
* `exclusive_ptr` (`be/src/util/exclusive_ptr.h`).

Stateful C++ is rendered as explicit state passing.  Pointers into shared
objects are addresses into an explicit store.
-/

namespace starrocks

/-! ## Part 1: TextConverter::write_slot -/

/-- One byte of raw text, given by its character code. -/
abbrev Byte := Nat

/-- Character code of the backslash. -/
def BACKSLASH : Byte := 92

/-- Character code of the capital letter N. -/
def CHAR_N : Byte := 78

/-- Primitive column types.  The enumerators named by the switch of `write_slot`
are listed one by one; `OTHER code` stands for every enumerator the switch does
not name (they all reach its `default` label). -/
inductive PrimitiveType where
  | TYPE_HLL
  | TYPE_VARCHAR
  | TYPE_CHAR
  | TYPE_BOOLEAN
  | TYPE_TINYINT
  | TYPE_SMALLINT
  | TYPE_INT
  | TYPE_BIGINT
  | TYPE_LARGEINT
  | TYPE_FLOAT
  | TYPE_DOUBLE
  | TYPE_DATE
  | TYPE_DATETIME
  | TYPE_DECIMAL
  | TYPE_DECIMALV2
  | TYPE_DECIMAL32
  | TYPE_DECIMAL64
  | TYPE_DECIMAL128
  | OTHER (code : Nat)
  deriving DecidableEq, Repr

/-- Type descriptor of a slot: `type()`, with `precision` and `scale` for decimals. -/
structure TypeDescriptor where
  type : PrimitiveType
  precision : Int
  scale : Int
  deriving DecidableEq, Repr

/-- Result codes of `StringParser`. -/
inductive ParseResult where
  | PARSE_SUCCESS
  | PARSE_FAILURE
  | PARSE_OVERFLOW
  | PARSE_UNDERFLOW
  deriving DecidableEq, Repr

/-- Slot descriptor: the accessors `write_slot` calls on it. -/
structure SlotDescriptor where
  type : TypeDescriptor
  is_nullable : Bool
  null_indicator_offset : Nat
  tuple_offset : Nat
  deriving DecidableEq, Repr

/-- Where the `ptr` of a `StringValue` points: at the caller's input bytes
(`const_cast<char*>(data)`) or at the buffer with the given index in the pool. -/
inductive StrPtr where
  | input
  | pooled (idx : Nat)
  deriving DecidableEq, Repr

/-- String value as stored in a slot: `ptr` and `len`. -/
structure StringValue where
  ptr : StrPtr
  len : Nat
  deriving DecidableEq, Repr

/-- Contents of a slot of a tuple.  `raw` is memory nobody has written a typed
value to; the other constructors are what the branches of `write_slot` store. -/
inductive SlotValue where
  | raw (bits : Nat)
  | string (v : StringValue)
  | boolean (b : Bool)
  | integer (size : Nat) (v : Int)
  | floating (size : Nat) (bits : Nat)
  | datetime (v : Nat)
  | decimal (v : Nat)
  | packed128 (v : Int)
  deriving DecidableEq, Repr

/-- Tuple, seen through the accessors `write_slot` uses: one null flag per null
indicator offset and one slot per tuple offset. -/
structure Tuple where
  null_indicators : Nat → Bool
  slots : Nat → SlotValue

/-- Effect of `Tuple::set_null(offset)`. -/
def Tuple.set_null (t : Tuple) (offset : Nat) : Tuple :=
  { t with null_indicators := fun o => if o = offset then true else t.null_indicators o }

/-- Effect of `Tuple::set_not_null(offset)`. -/
def Tuple.set_not_null (t : Tuple) (offset : Nat) : Tuple :=
  { t with null_indicators := fun o => if o = offset then false else t.null_indicators o }

/-- Reading of `Tuple::is_null(offset)`. -/
def Tuple.is_null (t : Tuple) (offset : Nat) : Bool :=
  t.null_indicators offset

/-- Reading of `Tuple::get_slot(offset)`. -/
def Tuple.get_slot (t : Tuple) (offset : Nat) : SlotValue :=
  t.slots offset

/-- Store through the pointer returned by `Tuple::get_slot(offset)`. -/
def Tuple.put_slot (t : Tuple) (offset : Nat) (v : SlotValue) : Tuple :=
  { t with slots := fun o => if o = offset then v else t.slots o }

/-- Memory pool: the buffers handed out so far, oldest first. -/
structure MemPool where
  chunks : List (List Byte)
  deriving DecidableEq, Repr

/-- Effect of `MemPool::allocate(size)`: a fresh buffer of `size` bytes is
appended; its index is returned. -/
def MemPool.allocate (pool : MemPool) (size : Nat) : Nat × MemPool :=
  (pool.chunks.length, { chunks := pool.chunks ++ [List.replicate size 0] })

/-- Store `bytes` at the start of buffer `idx`, leaving the rest of it as it was. -/
def MemPool.store (pool : MemPool) (idx : Nat) (bytes : List Byte) : MemPool :=
  { chunks := pool.chunks.modify (fun buf => bytes ++ buf.drop bytes.length) idx }

/-- Bytes a `StringValue` denotes, given the input buffer and the pool. -/
def StringValue.bytes (v : StringValue) (data : List Byte) (pool : MemPool) : List Byte :=
  match v.ptr with
  | StrPtr.input => data.take v.len
  | StrPtr.pooled idx => ((pool.chunks.get? idx).getD []).take v.len

/-- The parsing routines `write_slot` calls; their code lies outside the files at
hand, so they are parameters of the embedding.  Each returns what the routine
leaves behind: value and result code, or the state of the object it mutates. -/
structure TextParsers where
  string_to_bool : List Byte → Bool × ParseResult
  string_to_int : Nat → List Byte → Int × ParseResult
  string_to_float : Nat → List Byte → Nat × ParseResult
  from_date_str : SlotValue → List Byte → Bool × Nat
  cast_to_date : Nat → Nat
  to_datetime : Nat → Nat
  decimal_parse_from_str : SlotValue → List Byte → Int × Nat
  decimalv2_parse_from_str : List Byte → Int × Int
  decimalv3_from_string : Nat → Int → Int → List Byte → Bool × Int
  unescape_string : List Byte → List Byte

/-- Outcome of the switch of `write_slot`: the result code, the slot contents
and the pool after it. -/
structure SwitchResult where
  parse_result : ParseResult
  slot : SlotValue
  pool : MemPool

/-- The switch over `slot_desc->type().type` in `write_slot`.  `slot` is the
content of the slot before the switch. -/
def write_slot_switch (P : TextParsers) (td : TypeDescriptor) (slot : SlotValue)
    (data : List Byte) (copy_string need_escape : Bool) (pool : MemPool) : SwitchResult :=
  let len := data.length
  let string_case : SwitchResult :=
    let str_slot : StringValue := { ptr := StrPtr.input, len := len }
    if len ≠ 0 ∧ (copy_string = true ∨ need_escape = true) then
      let (slot_data, pool1) := pool.allocate len
      if need_escape = true then
        let out := P.unescape_string data
        { parse_result := ParseResult.PARSE_SUCCESS,
          slot := SlotValue.string { ptr := StrPtr.pooled slot_data, len := out.length },
          pool := pool1.store slot_data out }
      else
        { parse_result := ParseResult.PARSE_SUCCESS,
          slot := SlotValue.string { ptr := StrPtr.pooled slot_data, len := str_slot.len },
          pool := pool1.store slot_data (data.take str_slot.len) }
    else
      { parse_result := ParseResult.PARSE_SUCCESS, slot := SlotValue.string str_slot, pool := pool }
  let int_case (size : Nat) : SwitchResult :=
    let r := P.string_to_int size data
    { parse_result := r.2, slot := SlotValue.integer size r.1, pool := pool }
  let float_case (size : Nat) : SwitchResult :=
    let r := P.string_to_float size data
    { parse_result := r.2, slot := SlotValue.floating size r.1, pool := pool }
  let decimalv3_case (size : Nat) : SwitchResult :=
    let r := P.decimalv3_from_string size td.precision td.scale data
    if r.1 = true then
      { parse_result := ParseResult.PARSE_FAILURE, slot := slot, pool := pool }
    else
      { parse_result := ParseResult.PARSE_SUCCESS, slot := SlotValue.integer size r.2, pool := pool }
  match td.type with
  | PrimitiveType.TYPE_HLL => string_case
  | PrimitiveType.TYPE_VARCHAR => string_case
  | PrimitiveType.TYPE_CHAR => string_case
  | PrimitiveType.TYPE_BOOLEAN =>
      let r := P.string_to_bool data
      { parse_result := r.2, slot := SlotValue.boolean r.1, pool := pool }
  | PrimitiveType.TYPE_TINYINT => int_case 1
  | PrimitiveType.TYPE_SMALLINT => int_case 2
  | PrimitiveType.TYPE_INT => int_case 4
  | PrimitiveType.TYPE_BIGINT => int_case 8
  | PrimitiveType.TYPE_LARGEINT => int_case 16
  | PrimitiveType.TYPE_FLOAT => float_case 4
  | PrimitiveType.TYPE_DOUBLE => float_case 8
  | PrimitiveType.TYPE_DATE =>
      let r := P.from_date_str slot data
      if r.1 = false then
        { parse_result := ParseResult.PARSE_FAILURE, slot := SlotValue.datetime r.2, pool := pool }
      else
        { parse_result := ParseResult.PARSE_SUCCESS,
          slot := SlotValue.datetime (P.cast_to_date r.2), pool := pool }
  | PrimitiveType.TYPE_DATETIME =>
      let r := P.from_date_str slot data
      let parse_result :=
        if r.1 = false then ParseResult.PARSE_FAILURE else ParseResult.PARSE_SUCCESS
      { parse_result := parse_result, slot := SlotValue.datetime (P.to_datetime r.2), pool := pool }
  | PrimitiveType.TYPE_DECIMAL =>
      let r := P.decimal_parse_from_str slot data
      let parse_result :=
        if r.1 ≠ 0 then ParseResult.PARSE_FAILURE else ParseResult.PARSE_SUCCESS
      { parse_result := parse_result, slot := SlotValue.decimal r.2, pool := pool }
  | PrimitiveType.TYPE_DECIMALV2 =>
      let r := P.decimalv2_parse_from_str data
      let parse_result :=
        if r.1 ≠ 0 then ParseResult.PARSE_FAILURE else ParseResult.PARSE_SUCCESS
      { parse_result := parse_result, slot := SlotValue.packed128 r.2, pool := pool }
  | PrimitiveType.TYPE_DECIMAL32 => decimalv3_case 4
  | PrimitiveType.TYPE_DECIMAL64 => decimalv3_case 8
  | PrimitiveType.TYPE_DECIMAL128 => decimalv3_case 16
  | PrimitiveType.OTHER _ =>
      { parse_result := ParseResult.PARSE_SUCCESS, slot := slot, pool := pool }

/-- What a call of `write_slot` leaves behind: the returned flag, the tuple and
the pool. -/
structure WriteSlotResult where
  ret : Bool
  tuple : Tuple
  pool : MemPool

/-- The test `len == 2 && data[0] == '\\' && data[1] == 'N'`. -/
def is_null_literal (data : List Byte) : Bool :=
  data.length == 2 && data.get? 0 == some BACKSLASH && data.get? 1 == some CHAR_N

/-- Embedding of `TextConverter::write_slot`.  The input `data`, `len` is the list
of the `len` bytes at `data`; `pool` is the pool behind the (non-null) `MemPool*`. -/
def write_slot (P : TextParsers) (slot_desc : SlotDescriptor) (tuple : Tuple)
    (data : List Byte) (copy_string need_escape : Bool) (pool : MemPool) : WriteSlotResult :=
  if slot_desc.is_nullable = true ∧ is_null_literal data = true then
    { ret := true, tuple := tuple.set_null slot_desc.null_indicator_offset, pool := pool }
  else
    let tuple1 :=
      if slot_desc.is_nullable = true then tuple.set_not_null slot_desc.null_indicator_offset
      else tuple
    let slot := tuple1.get_slot slot_desc.tuple_offset
    let sw := write_slot_switch P slot_desc.type slot data copy_string need_escape pool
    let tuple2 := tuple1.put_slot slot_desc.tuple_offset sw.slot
    if sw.parse_result ≠ ParseResult.PARSE_SUCCESS then
      { ret := false, tuple := tuple2.set_null slot_desc.null_indicator_offset, pool := sw.pool }
    else
      { ret := true, tuple := tuple2, pool := sw.pool }

/-- The input is consumed as the null marker: the slot is nullable and the input
is the two bytes backslash, N. -/
def consumed_as_null (slot_desc : SlotDescriptor) (data : List Byte) : Prop :=
  slot_desc.is_nullable = true ∧ data = [BACKSLASH, CHAR_N]

/-- The result reported by the parser that the slot type selects, read off the
wording of the contract: the `StringParser` routines report their own code, a
failing `from_date_str` and a non-zero decimal parse result count as
`PARSE_FAILURE`.  `none` when the type selects no parser (the string types, and
the types the switch does not name). -/
def parser_report (P : TextParsers) (td : TypeDescriptor) (slot : SlotValue)
    (data : List Byte) : Option ParseResult :=
  match td.type with
  | PrimitiveType.TYPE_BOOLEAN => some (P.string_to_bool data).2
  | PrimitiveType.TYPE_TINYINT => some (P.string_to_int 1 data).2
  | PrimitiveType.TYPE_SMALLINT => some (P.string_to_int 2 data).2
  | PrimitiveType.TYPE_INT => some (P.string_to_int 4 data).2
  | PrimitiveType.TYPE_BIGINT => some (P.string_to_int 8 data).2
  | PrimitiveType.TYPE_LARGEINT => some (P.string_to_int 16 data).2
  | PrimitiveType.TYPE_FLOAT => some (P.string_to_float 4 data).2
  | PrimitiveType.TYPE_DOUBLE => some (P.string_to_float 8 data).2
  | PrimitiveType.TYPE_DATE =>
      some (if (P.from_date_str slot data).1 = true then ParseResult.PARSE_SUCCESS
            else ParseResult.PARSE_FAILURE)
  | PrimitiveType.TYPE_DATETIME =>
      some (if (P.from_date_str slot data).1 = true then ParseResult.PARSE_SUCCESS
            else ParseResult.PARSE_FAILURE)
  | PrimitiveType.TYPE_DECIMAL =>
      some (if (P.decimal_parse_from_str slot data).1 = 0 then ParseResult.PARSE_SUCCESS
            else ParseResult.PARSE_FAILURE)
  | PrimitiveType.TYPE_DECIMALV2 =>
      some (if (P.decimalv2_parse_from_str data).1 = 0 then ParseResult.PARSE_SUCCESS
            else ParseResult.PARSE_FAILURE)
  | PrimitiveType.TYPE_DECIMAL32 =>
      some (if (P.decimalv3_from_string 4 td.precision td.scale data).1 = true
            then ParseResult.PARSE_FAILURE else ParseResult.PARSE_SUCCESS)
  | PrimitiveType.TYPE_DECIMAL64 =>
      some (if (P.decimalv3_from_string 8 td.precision td.scale data).1 = true
            then ParseResult.PARSE_FAILURE else ParseResult.PARSE_SUCCESS)
  | PrimitiveType.TYPE_DECIMAL128 =>
      some (if (P.decimalv3_from_string 16 td.precision td.scale data).1 = true
            then ParseResult.PARSE_FAILURE else ParseResult.PARSE_SUCCESS)
  | _ => none

/-- The selected parser reports a result other than `PARSE_SUCCESS`. -/
def parser_rejects (P : TextParsers) (td : TypeDescriptor) (slot : SlotValue)
    (data : List Byte) : Prop :=
  ∃ r, parser_report P td slot data = some r ∧ r ≠ ParseResult.PARSE_SUCCESS

/-- The string slot types. -/
def is_string_type (t : PrimitiveType) : Prop :=
  t = PrimitiveType.TYPE_CHAR ∨ t = PrimitiveType.TYPE_VARCHAR ∨ t = PrimitiveType.TYPE_HLL

/-- Value of a string of decimal digits. -/
def digits_value (s : List Byte) : Int :=
  s.foldl (fun acc c => acc * 10 + ((c : Int) - 48)) 0

/-- Modelled from the spec: the text-to-value conversion routines (StringParser,
DateTimeValue, DecimalValue, DecimalV2Value, DecimalV3Cast, unescape_string) are
not among the sources.  This suite is one instance of the conversion the spec
describes, `(raw_bytes, target_type) -> typed_value | ParseFailure`, used to
evaluate `write_slot` on concrete inputs: a literal is accepted when it is a
non-empty string of decimal digits (within range, for integers) and reported as a
failure otherwise; unescaping is the identity. -/
def digitParsers : TextParsers where
  string_to_bool := fun s =>
    if s = [49] then (true, ParseResult.PARSE_SUCCESS)
    else if s = [48] then (false, ParseResult.PARSE_SUCCESS)
    else (false, ParseResult.PARSE_FAILURE)
  string_to_int := fun size s =>
    if s ≠ [] ∧ s.all (fun c => decide (48 ≤ c ∧ c ≤ 57)) = true then
      if digits_value s < 2 ^ (8 * size - 1) then (digits_value s, ParseResult.PARSE_SUCCESS)
      else (2 ^ (8 * size - 1) - 1, ParseResult.PARSE_OVERFLOW)
    else (0, ParseResult.PARSE_FAILURE)
  string_to_float := fun _ s =>
    if s ≠ [] ∧ s.all (fun c => decide (48 ≤ c ∧ c ≤ 57)) = true then
      ((digits_value s).toNat, ParseResult.PARSE_SUCCESS)
    else (0, ParseResult.PARSE_FAILURE)
  from_date_str := fun _ s =>
    if s.length = 8 ∧ s.all (fun c => decide (48 ≤ c ∧ c ≤ 57)) = true then
      (true, (digits_value s).toNat)
    else (false, 0)
  cast_to_date := fun v => v
  to_datetime := fun v => v
  decimal_parse_from_str := fun _ s =>
    if s ≠ [] ∧ s.all (fun c => decide (48 ≤ c ∧ c ≤ 57)) = true then
      (0, (digits_value s).toNat)
    else (1, 0)
  decimalv2_parse_from_str := fun s =>
    if s ≠ [] ∧ s.all (fun c => decide (48 ≤ c ∧ c ≤ 57)) = true then (0, digits_value s)
    else (1, 0)
  decimalv3_from_string := fun _ _ _ s =>
    if s ≠ [] ∧ s.all (fun c => decide (48 ≤ c ∧ c ≤ 57)) = true then (false, digits_value s)
    else (true, 0)
  unescape_string := fun s => s

/-- A tuple whose null flags are clear and whose slots hold untyped zero bits. -/
def blankTuple : Tuple :=
  { null_indicators := fun _ => false, slots := fun _ => SlotValue.raw 0 }

/-- A pool that has handed out nothing yet. -/
def emptyPool : MemPool := { chunks := [] }

/-- A slot descriptor of the given type and nullability, with null indicator
offset 0 and tuple offset 8, precision and scale 0. -/
def sampleSlot (t : PrimitiveType) (nullable : Bool) : SlotDescriptor :=
  { type := { type := t, precision := 0, scale := 0 }, is_nullable := nullable,
    null_indicator_offset := 0, tuple_offset := 8 }

/-! ## Part 2: AggregateDistinctBlockingSinkOperator and its factory -/

namespace pipeline

/-- Aggregation phases of the aggregator. -/
inductive AggrPhase where
  | AggrPhase1
  | AggrPhase2
  deriving DecidableEq, Repr

/-- A columnar batch, as far as the sink is concerned: its columns. -/
abbrev Chunk := List (List Int)

/-- Modelled from the spec: class Aggregator (exec/vectorized/aggregator.h) is not
among the sources.  The spec gives it "a phase tag" and grouping state fed by the
chunks pushed into it; the latter is kept as the list of chunks received. -/
structure Aggregator where
  _aggr_phase : AggrPhase
  _received : List Chunk
  deriving DecidableEq, Repr

/-- Modelled from the spec: `Aggregator::set_aggr_phase` is not among the
sources; it configures the aggregator into the given phase and touches nothing
else. -/
def Aggregator.set_aggr_phase (a : Aggregator) (aggr_phase : AggrPhase) : Aggregator :=
  { a with _aggr_phase := aggr_phase }

/-- Value of an `AggregatorPtr` (a shared pointer): null, or the address of an
aggregator in the store. -/
abbrev AggregatorPtr := Option Nat

/-- The aggregators that shared pointers refer to, by address. -/
abbrev AggregatorStore := Nat → Aggregator

/-- Fields of `AggregateDistinctBlockingSinkOperator`; `_id`, `_name` and
`_plan_node_id` are those the `Operator` base constructor receives. -/
structure AggregateDistinctBlockingSinkOperator where
  _id : Int
  _name : String
  _plan_node_id : Int
  _aggregator : AggregatorPtr
  _is_finished : Bool
  deriving DecidableEq, Repr

/-- The constructor `AggregateDistinctBlockingSinkOperator(id, plan_node_id,
aggregator)`: initialises the fields, then calls
`_aggregator->set_aggr_phase(AggrPhase2)`.  `none` when that call dereferences a
null pointer. -/
def AggregateDistinctBlockingSinkOperator.ctor (id plan_node_id : Int)
    (aggregator : AggregatorPtr) (store : AggregatorStore) :
    Option (AggregateDistinctBlockingSinkOperator × AggregatorStore) :=
  let this : AggregateDistinctBlockingSinkOperator :=
    { _id := id, _name := "aggregate_distinct_blocking_sink", _plan_node_id := plan_node_id,
      _aggregator := aggregator, _is_finished := false }
  match this._aggregator with
  | none => none
  | some addr =>
      some (this, fun x =>
        if x = addr then (store addr).set_aggr_phase AggrPhase.AggrPhase2 else store x)

/-- Member `has_output() const`. -/
def AggregateDistinctBlockingSinkOperator.has_output
    (_this : AggregateDistinctBlockingSinkOperator) : Bool := false

/-- Member `need_input() const`. -/
def AggregateDistinctBlockingSinkOperator.need_input
    (_this : AggregateDistinctBlockingSinkOperator) : Bool := true

/-- Bodies of the members the header only declares (`prepare`, `push_chunk`,
`finish`): any functions on the operator and the aggregator store. -/
structure SinkBodies where
  prepare : AggregateDistinctBlockingSinkOperator → AggregatorStore →
    AggregateDistinctBlockingSinkOperator × AggregatorStore
  push_chunk : AggregateDistinctBlockingSinkOperator → Chunk → AggregatorStore →
    AggregateDistinctBlockingSinkOperator × AggregatorStore
  finish : AggregateDistinctBlockingSinkOperator → AggregatorStore →
    AggregateDistinctBlockingSinkOperator × AggregatorStore

/-- A call made on the sink by its driver. -/
inductive SinkCall where
  | prepare
  | push_chunk (chunk : Chunk)
  | finish
  deriving DecidableEq, Repr

/-- One call on the sink, under the given bodies. -/
def SinkBodies.step (B : SinkBodies)
    (st : AggregateDistinctBlockingSinkOperator × AggregatorStore) (c : SinkCall) :
    AggregateDistinctBlockingSinkOperator × AggregatorStore :=
  match c with
  | SinkCall.prepare => B.prepare st.1 st.2
  | SinkCall.push_chunk chunk => B.push_chunk st.1 chunk st.2
  | SinkCall.finish => B.finish st.1 st.2

/-- A sequence of calls on the sink, left to right. -/
def SinkBodies.run (B : SinkBodies)
    (st : AggregateDistinctBlockingSinkOperator × AggregatorStore) (calls : List SinkCall) :
    AggregateDistinctBlockingSinkOperator × AggregatorStore :=
  calls.foldl B.step st

/-- Modelled from the spec: the bodies of `prepare`, `push_chunk` and `finish`
(aggregate_distinct_blocking_sink_operator.cpp) are not among the sources.
`prepare` allocates resources and changes nothing modelled here; `push_chunk`
buffers the chunk into the shared aggregator; `finish` signals that there is no
further input, after which the operator is finished. -/
def specBodies : SinkBodies where
  prepare := fun op store => (op, store)
  push_chunk := fun op chunk store =>
    match op._aggregator with
    | none => (op, store)
    | some addr =>
        (op, fun x =>
          if x = addr then { store addr with _received := (store addr)._received ++ [chunk] }
          else store x)
  finish := fun op store => ({ op with _is_finished := true }, store)

/-- Fields of `AggregateDistinctBlockingSinkOperatorFactory`; `_id` and
`_plan_node_id` are those of the `OperatorFactory` base. -/
structure AggregateDistinctBlockingSinkOperatorFactory where
  _id : Int
  _plan_node_id : Int
  _aggregator : AggregatorPtr
  deriving DecidableEq, Repr

/-- The constructor `AggregateDistinctBlockingSinkOperatorFactory(id, plan_node_id,
aggregator)`. -/
def AggregateDistinctBlockingSinkOperatorFactory.ctor (id plan_node_id : Int)
    (aggregator : AggregatorPtr) : AggregateDistinctBlockingSinkOperatorFactory :=
  { _id := id, _plan_node_id := plan_node_id, _aggregator := aggregator }

/-- Member `create(degree_of_parallelism, driver_sequence)`: makes a new operator
from the fields of the factory. -/
def AggregateDistinctBlockingSinkOperatorFactory.create
    (this : AggregateDistinctBlockingSinkOperatorFactory)
    (_degree_of_parallelism _driver_sequence : Int) (store : AggregatorStore) :
    Option (AggregateDistinctBlockingSinkOperator × AggregatorStore) :=
  AggregateDistinctBlockingSinkOperator.ctor this._id this._plan_node_id this._aggregator store

/-- A store in which every aggregator is in its first phase and has received
nothing. -/
def freshStore : AggregatorStore :=
  fun _ => { _aggr_phase := AggrPhase.AggrPhase1, _received := [] }

end pipeline

/-! ## Part 3: exclusive_ptr -/

/-- The `exclusive_ptr` instances of a program and the objects they manage.
`ptrs` lists the `_value` of every instance, by instance index (`none` is
`nullptr`, `some a` the address of the managed object); `destroyed` lists the
addresses whose object has been deleted, most recent first; `next` is the address
the next allocation returns. -/
structure PtrState where
  ptrs : List (Option Nat)
  destroyed : List Nat
  next : Nat
  deriving DecidableEq, Repr

namespace exclusive_ptr

/-- Member `get() const`: the `_value.get()` of instance `this`. -/
def get (s : PtrState) (this : Nat) : Option Nat :=
  s.ptrs.getD this none

/-- Member `release() const`: `_value.release()` gives up the managed address
and leaves `nullptr` behind. -/
def release (s : PtrState) (this : Nat) : Option Nat × PtrState :=
  (get s this, { s with ptrs := s.ptrs.set this none })

/-- Member `reset(type* ptr) const`: `_value.reset(ptr)` stores `ptr` and then
deletes the object held before, if any. -/
def reset_to (s : PtrState) (this : Nat) (ptr : Option Nat) : PtrState :=
  match get s this with
  | none => { s with ptrs := s.ptrs.set this ptr }
  | some old => { s with ptrs := s.ptrs.set this ptr, destroyed := old :: s.destroyed }

/-- Member `reset() const`: `_value.reset()`. -/
def reset (s : PtrState) (this : Nat) : PtrState :=
  reset_to s this none

/-- The constructors `exclusive_ptr()` and `exclusive_ptr(nullptr_t)`: a new
instance holding nothing. -/
def default_ctor (s : PtrState) : PtrState :=
  { s with ptrs := s.ptrs ++ [none] }

/-- The copy constructor `exclusive_ptr(const exclusive_ptr& other)`:
`_value(other.release())`.  The new instance gets index `s.ptrs.length`. -/
def copy_ctor (s : PtrState) (other : Nat) : PtrState :=
  let r := release s other
  { r.2 with ptrs := r.2.ptrs ++ [r.1] }

/-- The move constructor `exclusive_ptr(exclusive_ptr&& other)`:
`_value(other.release())`. -/
def move_ctor (s : PtrState) (other : Nat) : PtrState :=
  let r := release s other
  { r.2 with ptrs := r.2.ptrs ++ [r.1] }

/-- Copy assignment `operator=(const exclusive_ptr& other)`:
`this->reset(other.release())`. -/
def copy_assign (s : PtrState) (this other : Nat) : PtrState :=
  let r := release s other
  reset_to r.2 this r.1

/-- Move assignment `operator=(exclusive_ptr&& other)`:
`this->reset(other.release())`. -/
def move_assign (s : PtrState) (this other : Nat) : PtrState :=
  let r := release s other
  reset_to r.2 this r.1

/-- Assignment `operator=(nullptr_t)`: `this->_value = nullptr`, which for a
`std::unique_ptr` is `reset()`. -/
def assign_nullptr (s : PtrState) (this : Nat) : PtrState :=
  reset_to s this none

/-- The function `make_exclusive<T>(args...)`: `std::make_unique` allocates a new
object, and the new instance takes it over from the temporary. -/
def make_exclusive (s : PtrState) : PtrState :=
  { ptrs := s.ptrs ++ [some s.next], destroyed := s.destroyed, next := s.next + 1 }

/-- The operations on `exclusive_ptr` instances; operands are instance indices. -/
inductive PtrOp where
  | default_ctor
  | make_exclusive
  | copy_ctor (other : Nat)
  | move_ctor (other : Nat)
  | copy_assign (this other : Nat)
  | move_assign (this other : Nat)
  | assign_nullptr (this : Nat)
  | reset (this : Nat)
  | release (this : Nat)
  deriving DecidableEq, Repr

/-- One operation. -/
def step (s : PtrState) (op : PtrOp) : PtrState :=
  match op with
  | PtrOp.default_ctor => default_ctor s
  | PtrOp.make_exclusive => make_exclusive s
  | PtrOp.copy_ctor other => copy_ctor s other
  | PtrOp.move_ctor other => move_ctor s other
  | PtrOp.copy_assign this other => copy_assign s this other
  | PtrOp.move_assign this other => move_assign s this other
  | PtrOp.assign_nullptr this => assign_nullptr s this
  | PtrOp.reset this => reset s this
  | PtrOp.release this => (release s this).2

/-- A sequence of operations, left to right. -/
def run (s : PtrState) (ops : List PtrOp) : PtrState :=
  ops.foldl step s

/-- The state of a program before any `exclusive_ptr` exists. -/
def start : PtrState := { ptrs := [], destroyed := [], next := 0 }

/-- Two instances, each holding an object of its own: instance 0 holds the
object at address 0 and instance 1 the object at address 1. -/
def twoOwners : PtrState := { ptrs := [some 0, some 1], destroyed := [], next := 2 }

/-- A single instance, holding the object at address 0. -/
def oneOwner : PtrState := { ptrs := [some 0], destroyed := [], next := 1 }

/-- No object is held by two distinct instances. -/
def Exclusive (s : PtrState) : Prop :=
  ∀ i j a, get s i = some a → get s j = some a → i = j

/-- No instance holds a destroyed object. -/
def NoneDestroyed (s : PtrState) : Prop :=
  ∀ i a, get s i = some a → a ∉ s.destroyed

/-- Every held address has been allocated. -/
def Allocated (s : PtrState) : Prop :=
  ∀ i a, get s i = some a → a < s.next

/-- Every destroyed address has been allocated. -/
def DestroyedAllocated (s : PtrState) : Prop :=
  ∀ a, a ∈ s.destroyed → a < s.next

/-- The invariant of the instances: exclusive ownership of live, allocated objects. -/
def Inv (s : PtrState) : Prop :=
  Exclusive s ∧ NoneDestroyed s ∧ Allocated s ∧ DestroyedAllocated s

end exclusive_ptr

/-! ## Theorems, part 1: TextConverter::write_slot -/

/-- The test on `len` and the first two bytes holds exactly for the two-byte
input backslash, N. -/
theorem is_null_literal_iff (data : List Byte) :
    is_null_literal data = true ↔ data = [BACKSLASH, CHAR_N] := by
  match data with
  | [] => simp [is_null_literal]
  | [a] => simp [is_null_literal]
  | [a, b] => simp [is_null_literal]
  | a :: b :: c :: rest => simp [is_null_literal]

/-- The first test of `write_slot` is the one `consumed_as_null` names. -/
theorem consumed_as_null_iff (slot_desc : SlotDescriptor) (data : List Byte) :
    (slot_desc.is_nullable = true ∧ is_null_literal data = true) ↔
      consumed_as_null slot_desc data := by
  simp [consumed_as_null, is_null_literal_iff]

/-- The result code the switch leaves is a failure exactly when the selected
parser rejects the input. -/
theorem switch_result_ne_success_iff (P : TextParsers) (td : TypeDescriptor) (slot : SlotValue)
    (data : List Byte) (copy_string need_escape : Bool) (pool : MemPool) :
    (write_slot_switch P td slot data copy_string need_escape pool).parse_result
        ≠ ParseResult.PARSE_SUCCESS ↔ parser_rejects P td slot data := by
  unfold parser_rejects parser_report write_slot_switch
  cases h : td.type <;> simp <;> (try split) <;> (try split) <;> (try simp_all)

/-- Setting the null flag at an offset makes `is_null` true there. -/
theorem is_null_set_null (t : Tuple) (offset : Nat) :
    (t.set_null offset).is_null offset = true := by
  simp [Tuple.set_null, Tuple.is_null]

/-- After `set_not_null` at an offset and a store into a slot, `is_null` is false
at that offset. -/
theorem is_null_put_slot_set_not_null (t : Tuple) (offset so : Nat) (v : SlotValue) :
    ((t.set_not_null offset).put_slot so v).is_null offset = false := by
  simp [Tuple.set_not_null, Tuple.put_slot, Tuple.is_null]

/-- C1: for a nullable slot of any type and any tuple, on the two-byte input
backslash, N, `write_slot` returns true, sets the null indicator of the slot and
leaves every slot value and the pool as they were; the outcome is the same
whatever the parsers are, none of them being called. -/
theorem write_slot_null_literal (P : TextParsers) (slot_desc : SlotDescriptor) (tuple : Tuple)
    (copy_string need_escape : Bool) (pool : MemPool)
    (hnullable : slot_desc.is_nullable = true) :
    write_slot P slot_desc tuple [BACKSLASH, CHAR_N] copy_string need_escape pool
        = { ret := true, tuple := tuple.set_null slot_desc.null_indicator_offset, pool := pool }
      ∧ (tuple.set_null slot_desc.null_indicator_offset).is_null
          slot_desc.null_indicator_offset = true
      ∧ ∀ offset, (tuple.set_null slot_desc.null_indicator_offset).get_slot offset
          = tuple.get_slot offset := by
  refine ⟨?_, is_null_set_null _ _, fun offset => rfl⟩
  have hlit : is_null_literal [BACKSLASH, CHAR_N] = true := (is_null_literal_iff _).2 rfl
  simp [write_slot, hnullable, hlit]

/-- Witness of C1: a nullable INT slot of a blank tuple. -/
theorem write_slot_null_literal_witness :
    (sampleSlot PrimitiveType.TYPE_INT true).is_nullable = true
      ∧ (write_slot digitParsers (sampleSlot PrimitiveType.TYPE_INT true) blankTuple
            [BACKSLASH, CHAR_N] true false emptyPool).ret = true
      ∧ (write_slot digitParsers (sampleSlot PrimitiveType.TYPE_INT true) blankTuple
            [BACKSLASH, CHAR_N] true false emptyPool).tuple.is_null 0 = true
      ∧ (write_slot digitParsers (sampleSlot PrimitiveType.TYPE_INT true) blankTuple
            [BACKSLASH, CHAR_N] true false emptyPool).tuple.get_slot 8 = SlotValue.raw 0 := by
  have h := write_slot_null_literal digitParsers (sampleSlot PrimitiveType.TYPE_INT true)
    blankTuple true false emptyPool rfl
  refine ⟨rfl, ?_, ?_, ?_⟩
  · rw [h.1]
  · rw [h.1]; exact h.2.1
  · rw [h.1]; exact h.2.2 8

/-- C2: `write_slot` returns false exactly when the input is not consumed as the
null marker and the parser selected by the slot type reports a result other than
`PARSE_SUCCESS`; and whenever it returns false, the null indicator of the slot is
set in the tuple it leaves. -/
theorem write_slot_false_iff (P : TextParsers) (slot_desc : SlotDescriptor) (tuple : Tuple)
    (data : List Byte) (copy_string need_escape : Bool) (pool : MemPool) :
    ((write_slot P slot_desc tuple data copy_string need_escape pool).ret = false ↔
        (¬ consumed_as_null slot_desc data ∧
          parser_rejects P slot_desc.type (tuple.get_slot slot_desc.tuple_offset) data))
      ∧ ((write_slot P slot_desc tuple data copy_string need_escape pool).ret = false →
          (write_slot P slot_desc tuple data copy_string need_escape pool).tuple.is_null
            slot_desc.null_indicator_offset = true) := by
  have hslot : ∀ t : Tuple, (if slot_desc.is_nullable = true
      then t.set_not_null slot_desc.null_indicator_offset else t).get_slot slot_desc.tuple_offset
        = t.get_slot slot_desc.tuple_offset := by
    intro t; split <;> rfl
  unfold write_slot
  by_cases hc : slot_desc.is_nullable = true ∧ is_null_literal data = true
  · have hc2 := (consumed_as_null_iff slot_desc data).1 hc
    rw [if_pos hc]
    simp [hc2]
  · have hc2 : ¬ consumed_as_null slot_desc data :=
      fun h => hc ((consumed_as_null_iff slot_desc data).2 h)
    rw [if_neg hc]
    simp only [hslot]
    by_cases hp : (write_slot_switch P slot_desc.type (tuple.get_slot slot_desc.tuple_offset)
        data copy_string need_escape pool).parse_result ≠ ParseResult.PARSE_SUCCESS
    · have hr := (switch_result_ne_success_iff P slot_desc.type
        (tuple.get_slot slot_desc.tuple_offset) data copy_string need_escape pool).1 hp
      rw [if_pos hp]
      exact ⟨⟨fun _ => ⟨hc2, hr⟩, fun _ => rfl⟩, fun _ => is_null_set_null _ _⟩
    · have hr : ¬ parser_rejects P slot_desc.type (tuple.get_slot slot_desc.tuple_offset) data :=
        fun h => hp ((switch_result_ne_success_iff P slot_desc.type
          (tuple.get_slot slot_desc.tuple_offset) data copy_string need_escape pool).2 h)
      rw [if_neg hp]
      simp [hr]

/-- C3, as stated, fails: on the three bytes `abc`, a nullable INT slot ends with
its null indicator set, `write_slot` having returned false, although the input is
not the two bytes backslash, N. -/
theorem null_indicator_set_on_malformed_int :
    (sampleSlot PrimitiveType.TYPE_INT true).is_nullable = true
      ∧ (write_slot digitParsers (sampleSlot PrimitiveType.TYPE_INT true) blankTuple
            [97, 98, 99] false false emptyPool).tuple.is_null
              (sampleSlot PrimitiveType.TYPE_INT true).null_indicator_offset = true
      ∧ (write_slot digitParsers (sampleSlot PrimitiveType.TYPE_INT true) blankTuple
            [97, 98, 99] false false emptyPool).ret = false
      ∧ ([97, 98, 99] : List Byte) ≠ [BACKSLASH, CHAR_N] := by
  refine ⟨rfl, ?_, ?_, by decide⟩ <;> rfl

/-- C3, amended: for a nullable slot of any type and any input, the null indicator
of the slot is set after `write_slot` exactly when the input is the two bytes
backslash, N, or the parser selected by the slot type reports a result other than
`PARSE_SUCCESS`. -/
theorem null_indicator_set_iff (P : TextParsers) (slot_desc : SlotDescriptor) (tuple : Tuple)
    (data : List Byte) (copy_string need_escape : Bool) (pool : MemPool)
    (hnullable : slot_desc.is_nullable = true) :
    (write_slot P slot_desc tuple data copy_string need_escape pool).tuple.is_null
        slot_desc.null_indicator_offset = true ↔
      (data = [BACKSLASH, CHAR_N] ∨
        parser_rejects P slot_desc.type (tuple.get_slot slot_desc.tuple_offset) data) := by
  unfold write_slot
  by_cases hl : is_null_literal data = true
  · have hd := (is_null_literal_iff data).1 hl
    rw [if_pos ⟨hnullable, hl⟩]
    simp [hd, is_null_set_null]
  · have hd : ¬ data = [BACKSLASH, CHAR_N] := fun h => hl ((is_null_literal_iff data).2 h)
    rw [if_neg (fun h => hl h.2)]
    simp only [hnullable, if_true]
    have hslot : (tuple.set_not_null slot_desc.null_indicator_offset).get_slot
        slot_desc.tuple_offset = tuple.get_slot slot_desc.tuple_offset := rfl
    rw [hslot]
    by_cases hp : (write_slot_switch P slot_desc.type (tuple.get_slot slot_desc.tuple_offset)
        data copy_string need_escape pool).parse_result ≠ ParseResult.PARSE_SUCCESS
    · have hr := (switch_result_ne_success_iff P slot_desc.type
        (tuple.get_slot slot_desc.tuple_offset) data copy_string need_escape pool).1 hp
      rw [if_pos hp]
      simp [hr, is_null_set_null]
    · have hr : ¬ parser_rejects P slot_desc.type (tuple.get_slot slot_desc.tuple_offset) data :=
        fun h => hp ((switch_result_ne_success_iff P slot_desc.type
          (tuple.get_slot slot_desc.tuple_offset) data copy_string need_escape pool).2 h)
      rw [if_neg hp]
      simp [hr, hd, is_null_put_slot_set_not_null]

/-- Witness of the amended C3: the nullable INT slot on the input `abc`. -/
theorem null_indicator_set_iff_witness :
    (sampleSlot PrimitiveType.TYPE_INT true).is_nullable = true
      ∧ ((write_slot digitParsers (sampleSlot PrimitiveType.TYPE_INT true) blankTuple
            [97, 98, 99] false false emptyPool).tuple.is_null
              (sampleSlot PrimitiveType.TYPE_INT true).null_indicator_offset = true ↔
          (([97, 98, 99] : List Byte) = [BACKSLASH, CHAR_N] ∨
            parser_rejects digitParsers (sampleSlot PrimitiveType.TYPE_INT true).type
              (blankTuple.get_slot (sampleSlot PrimitiveType.TYPE_INT true).tuple_offset)
              [97, 98, 99])) :=
  ⟨rfl, null_indicator_set_iff digitParsers (sampleSlot PrimitiveType.TYPE_INT true) blankTuple
    [97, 98, 99] false false emptyPool rfl⟩

/-- Modifying the last buffer of a pool. -/
theorem modify_last (f : List Byte → List Byte) (l : List (List Byte)) (b : List Byte) :
    (l ++ [b]).modify f l.length = l ++ [f b] := by
  induction l with
  | nil => rfl
  | cons x xs ih => simpa [List.modify] using ih

/-- Allocating `data.length` bytes and copying `data` there appends `data` to the
pool. -/
theorem allocate_store (pool : MemPool) (data : List Byte) :
    ((pool.allocate data.length).2.store (pool.allocate data.length).1
        (data.take data.length)).chunks = pool.chunks ++ [data] := by
  simp [MemPool.allocate, MemPool.store, modify_last]

/-- For a string type, the switch of `write_slot` reports success. -/
theorem switch_string_success (P : TextParsers) (td : TypeDescriptor) (slot : SlotValue)
    (data : List Byte) (copy_string need_escape : Bool) (pool : MemPool)
    (htype : is_string_type td.type) :
    (write_slot_switch P td slot data copy_string need_escape pool).parse_result
      = ParseResult.PARSE_SUCCESS := by
  by_contra h
  obtain ⟨r, hr, -⟩ := (switch_result_ne_success_iff P td slot data copy_string need_escape pool).1 h
  rcases htype with ht | ht | ht <;> simp [parser_report, ht] at hr

/-- For a string type and an empty input, the switch stores a string value
pointing at the input and leaves the pool alone. -/
theorem switch_string_empty (P : TextParsers) (td : TypeDescriptor) (slot : SlotValue)
    (data : List Byte) (copy_string need_escape : Bool) (pool : MemPool)
    (htype : is_string_type td.type) (hlen : data.length = 0) :
    (write_slot_switch P td slot data copy_string need_escape pool).slot
        = SlotValue.string { ptr := StrPtr.input, len := data.length }
      ∧ (write_slot_switch P td slot data copy_string need_escape pool).pool = pool := by
  unfold write_slot_switch
  rcases htype with ht | ht | ht <;> simp [ht, hlen]

/-- For a string type without copy and without escape, the switch stores a string
value pointing at the input and leaves the pool alone. -/
theorem switch_string_in_place (P : TextParsers) (td : TypeDescriptor) (slot : SlotValue)
    (data : List Byte) (pool : MemPool) (htype : is_string_type td.type) :
    (write_slot_switch P td slot data false false pool).slot
        = SlotValue.string { ptr := StrPtr.input, len := data.length }
      ∧ (write_slot_switch P td slot data false false pool).pool = pool := by
  unfold write_slot_switch
  rcases htype with ht | ht | ht <;> simp [ht]

/-- For a string type with copy, without escape, on a non-empty input, the switch
stores a string value pointing at a new buffer of the pool that holds the input. -/
theorem switch_string_copy (P : TextParsers) (td : TypeDescriptor) (slot : SlotValue)
    (data : List Byte) (pool : MemPool) (htype : is_string_type td.type)
    (hlen : data.length ≠ 0) :
    (write_slot_switch P td slot data true false pool).slot
        = SlotValue.string { ptr := StrPtr.pooled pool.chunks.length, len := data.length }
      ∧ (write_slot_switch P td slot data true false pool).pool.chunks
        = pool.chunks ++ [data] := by
  have hne : ¬ data = [] := fun h => hlen (by simp [h])
  have hstore := allocate_store pool data
  unfold write_slot_switch
  rcases htype with ht | ht | ht <;> simp [ht, hne] <;> exact ⟨rfl, by simpa using hstore⟩

/-- When the input is not consumed as the null marker and the slot has a string
type, `write_slot` returns true and leaves what the switch produced. -/
theorem write_slot_string_normal_form (P : TextParsers) (slot_desc : SlotDescriptor)
    (tuple : Tuple) (data : List Byte) (copy_string need_escape : Bool) (pool : MemPool)
    (htype : is_string_type slot_desc.type.type)
    (hnot : ¬ consumed_as_null slot_desc data) :
    (write_slot P slot_desc tuple data copy_string need_escape pool).ret = true
      ∧ (write_slot P slot_desc tuple data copy_string need_escape pool).tuple.get_slot
          slot_desc.tuple_offset
        = (write_slot_switch P slot_desc.type (tuple.get_slot slot_desc.tuple_offset) data
            copy_string need_escape pool).slot
      ∧ (write_slot P slot_desc tuple data copy_string need_escape pool).pool
        = (write_slot_switch P slot_desc.type (tuple.get_slot slot_desc.tuple_offset) data
            copy_string need_escape pool).pool := by
  have hslot : ∀ t : Tuple, (if slot_desc.is_nullable = true
      then t.set_not_null slot_desc.null_indicator_offset else t).get_slot slot_desc.tuple_offset
        = t.get_slot slot_desc.tuple_offset := by
    intro t; split <;> rfl
  have hc : ¬ (slot_desc.is_nullable = true ∧ is_null_literal data = true) :=
    fun h => hnot ((consumed_as_null_iff slot_desc data).1 h)
  have hs := switch_string_success P slot_desc.type (tuple.get_slot slot_desc.tuple_offset) data
    copy_string need_escape pool htype
  unfold write_slot
  rw [if_neg hc]
  simp only [hslot, hs, ne_eq, not_true_eq_false, if_false]
  simp [Tuple.get_slot, Tuple.put_slot]

/-- C9: for the string slot types and every input not consumed as the null marker,
`write_slot` returns true; without escaping the stored string value has length
`len` and denotes the input bytes, pointing at the input (pool untouched) when
copy_string is false or `len` is 0, and at a new pool buffer holding a copy of the
input when copy_string is true and `len` is not 0; and when `len` is 0 the pool is
left as it was. -/
theorem write_slot_string_types (P : TextParsers) (slot_desc : SlotDescriptor)
    (tuple : Tuple) (data : List Byte) (copy_string need_escape : Bool) (pool : MemPool)
    (htype : is_string_type slot_desc.type.type)
    (hnot : ¬ consumed_as_null slot_desc data) :
    (write_slot P slot_desc tuple data copy_string need_escape pool).ret = true
      ∧ (need_escape = false →
          ∃ v : StringValue,
            (write_slot P slot_desc tuple data copy_string need_escape pool).tuple.get_slot
                slot_desc.tuple_offset = SlotValue.string v
            ∧ v.len = data.length
            ∧ v.bytes data (write_slot P slot_desc tuple data copy_string need_escape pool).pool
                = data
            ∧ ((copy_string = false ∨ data.length = 0) →
                v.ptr = StrPtr.input
                ∧ (write_slot P slot_desc tuple data copy_string need_escape pool).pool = pool)
            ∧ ((copy_string = true ∧ data.length ≠ 0) →
                v.ptr = StrPtr.pooled pool.chunks.length
                ∧ (write_slot P slot_desc tuple data copy_string need_escape pool).pool.chunks
                    = pool.chunks ++ [data]))
      ∧ (data.length = 0 →
          (write_slot P slot_desc tuple data copy_string need_escape pool).pool = pool) := by
  obtain ⟨hret, hslot, hpool⟩ := write_slot_string_normal_form P slot_desc tuple data
    copy_string need_escape pool htype hnot
  refine ⟨hret, ?_, ?_⟩
  · intro hesc
    subst hesc
    by_cases hlen : data.length = 0
    · obtain ⟨h1, h2⟩ := switch_string_empty P slot_desc.type
        (tuple.get_slot slot_desc.tuple_offset) data copy_string false pool htype hlen
      refine ⟨{ ptr := StrPtr.input, len := data.length }, ?_, rfl, ?_, ?_, ?_⟩
      · rw [hslot, h1]
      · simp [StringValue.bytes]
      · intro _; exact ⟨rfl, by rw [hpool, h2]⟩
      · intro h; exact absurd hlen h.2
    · cases copy_string with
      | false =>
        obtain ⟨h1, h2⟩ := switch_string_in_place P slot_desc.type
          (tuple.get_slot slot_desc.tuple_offset) data pool htype
        refine ⟨{ ptr := StrPtr.input, len := data.length }, ?_, rfl, ?_, ?_, ?_⟩
        · rw [hslot, h1]
        · simp [StringValue.bytes]
        · intro _; exact ⟨rfl, by rw [hpool, h2]⟩
        · intro h; exact absurd h.1 (by decide)
      | true =>
        obtain ⟨h1, h2⟩ := switch_string_copy P slot_desc.type
          (tuple.get_slot slot_desc.tuple_offset) data pool htype hlen
        refine ⟨{ ptr := StrPtr.pooled pool.chunks.length, len := data.length }, ?_, rfl, ?_, ?_, ?_⟩
        · rw [hslot, h1]
        · rw [hpool]
          simp [StringValue.bytes, h2]
        · intro h
          rcases h with h | h
          · exact absurd h (by decide)
          · exact absurd h hlen
        · intro _; exact ⟨rfl, by rw [hpool, h2]⟩
  · intro hlen
    rw [hpool]
    exact (switch_string_empty P slot_desc.type (tuple.get_slot slot_desc.tuple_offset) data
      copy_string need_escape pool htype hlen).2

/-- Witness of C9: a non-nullable VARCHAR slot, the input `ab`, copied into the
pool. -/
theorem write_slot_string_types_witness :
    is_string_type (sampleSlot PrimitiveType.TYPE_VARCHAR false).type.type
      ∧ ¬ consumed_as_null (sampleSlot PrimitiveType.TYPE_VARCHAR false) [97, 98]
      ∧ (write_slot digitParsers (sampleSlot PrimitiveType.TYPE_VARCHAR false) blankTuple
            [97, 98] true false emptyPool).ret = true
      ∧ (write_slot digitParsers (sampleSlot PrimitiveType.TYPE_VARCHAR false) blankTuple
            [97, 98] true false emptyPool).tuple.get_slot 8
          = SlotValue.string { ptr := StrPtr.pooled 0, len := 2 }
      ∧ (write_slot digitParsers (sampleSlot PrimitiveType.TYPE_VARCHAR false) blankTuple
            [97, 98] true false emptyPool).pool.chunks = [[97, 98]] := by
  have htype : is_string_type (sampleSlot PrimitiveType.TYPE_VARCHAR false).type.type :=
    Or.inr (Or.inl rfl)
  have hnot : ¬ consumed_as_null (sampleSlot PrimitiveType.TYPE_VARCHAR false) [97, 98] :=
    fun h => absurd h.1 (by decide)
  have h := write_slot_string_types digitParsers (sampleSlot PrimitiveType.TYPE_VARCHAR false)
    blankTuple [97, 98] true false emptyPool htype hnot
  exact ⟨htype, hnot, h.1, rfl, rfl⟩

/-! ## Theorems, part 2: AggregateDistinctBlockingSinkOperator -/

namespace pipeline

/-- C4: `has_output()` is false in every state of the sink: whatever the bodies of
`prepare`, `push_chunk` and `finish` do, from any operator (a newly constructed
one included) and any aggregator store, before and after any sequence of those
calls. -/
theorem has_output_always_false (B : SinkBodies)
    (op : AggregateDistinctBlockingSinkOperator) (store : AggregatorStore)
    (calls : List SinkCall) :
    op.has_output = false ∧ (B.run (op, store) calls).1.has_output = false :=
  ⟨rfl, rfl⟩

/-- C5, as stated, fails: an operator constructed over the aggregator at address
0 and then finished has `_is_finished` set, and `need_input()` is still true; so
is it for the operator value whose `_is_finished` field is set. -/
theorem need_input_true_when_finished :
    (AggregateDistinctBlockingSinkOperator.ctor 1 2 (some 0) freshStore).map
        (fun st => ((specBodies.run st [SinkCall.finish]).1._is_finished,
                    (specBodies.run st [SinkCall.finish]).1.need_input))
      = some (true, true)
      ∧ ({ _id := 1, _name := "aggregate_distinct_blocking_sink", _plan_node_id := 2,
           _aggregator := some 0, _is_finished := true } :
          AggregateDistinctBlockingSinkOperator).need_input = true :=
  ⟨rfl, rfl⟩

/-- C5, amended: `need_input()` is true in every state of the sink, finished or
not: whatever the bodies of `prepare`, `push_chunk` and `finish` do, it is true
before and after any sequence of those calls, and it is true of an operator whose
`_is_finished` is set as of one whose `_is_finished` is clear. -/
theorem need_input_always_true (B : SinkBodies)
    (op : AggregateDistinctBlockingSinkOperator) (store : AggregatorStore)
    (calls : List SinkCall) :
    op.need_input = true
      ∧ (B.run (op, store) calls).1.need_input = true
      ∧ ({ op with _is_finished := true }).need_input = true
      ∧ ({ op with _is_finished := false }).need_input = true :=
  ⟨rfl, rfl, rfl, rfl⟩

/-- C6: constructing the sink over the aggregator at `addr` succeeds, leaves that
aggregator in `AggrPhase2` whatever its phase was, changes nothing else in it or
in any other aggregator, and yields an operator that refers to it and is not
finished. -/
theorem ctor_sets_phase2 (id plan_node_id : Int) (addr : Nat) (store : AggregatorStore) :
    ∃ op store1,
      AggregateDistinctBlockingSinkOperator.ctor id plan_node_id (some addr) store
          = some (op, store1)
        ∧ (store1 addr)._aggr_phase = AggrPhase.AggrPhase2
        ∧ (store1 addr)._received = (store addr)._received
        ∧ (∀ x, x ≠ addr → store1 x = store x)
        ∧ op._is_finished = false
        ∧ op._aggregator = some addr
        ∧ op._id = id
        ∧ op._plan_node_id = plan_node_id := by
  refine ⟨_, _, rfl, ?_, ?_, ?_, rfl, rfl, rfl, rfl⟩
  · simp [Aggregator.set_aggr_phase]
  · simp [Aggregator.set_aggr_phase]
  · intro x hx
    simp [hx]

/-- C7: `create` does not depend on `degree_of_parallelism` and `driver_sequence`;
for a factory built over the aggregator at `addr`, every call returns an operator
carrying the id and plan node id of the factory and referring to that aggregator,
so two operators created by the factory, for any lanes, refer to the same one. -/
theorem create_shares_aggregator (id plan_node_id : Int) (addr : Nat)
    (degree_of_parallelism driver_sequence degree_of_parallelism2 driver_sequence2 : Int)
    (store store2 : AggregatorStore) :
    (∀ this : AggregateDistinctBlockingSinkOperatorFactory,
        this.create degree_of_parallelism driver_sequence store
          = this.create degree_of_parallelism2 driver_sequence2 store)
      ∧ ∃ op1 st1 op2 st2,
          (AggregateDistinctBlockingSinkOperatorFactory.ctor id plan_node_id (some addr)).create
              degree_of_parallelism driver_sequence store = some (op1, st1)
            ∧ (AggregateDistinctBlockingSinkOperatorFactory.ctor id plan_node_id (some addr)).create
              degree_of_parallelism2 driver_sequence2 store2 = some (op2, st2)
            ∧ op1._id = id ∧ op1._plan_node_id = plan_node_id ∧ op1._aggregator = some addr
            ∧ op2._id = id ∧ op2._plan_node_id = plan_node_id ∧ op2._aggregator = some addr
            ∧ op1._aggregator = op2._aggregator :=
  ⟨fun _ => rfl, _, _, _, _, rfl, rfl, rfl, rfl, rfl, rfl, rfl, rfl, rfl⟩

end pipeline

/-! ## Theorems, part 3: exclusive_ptr -/

namespace exclusive_ptr

/-- An instance that holds an object exists. -/
theorem get_lt (s : PtrState) (i a : Nat) (h : get s i = some a) : i < s.ptrs.length := by
  by_contra hlt
  have hle : s.ptrs.length ≤ i := Nat.le_of_not_lt hlt
  simp [get, List.getElem?_eq_none hle] at h

/-- What the instances hold after the list of values is overwritten at `p`. -/
theorem get_set (s : PtrState) (p : Nat) (v : Option Nat) (d : List Nat) (n i : Nat) :
    get { ptrs := s.ptrs.set p v, destroyed := d, next := n } i
      = if i = p ∧ p < s.ptrs.length then v else get s i := by
  unfold get
  by_cases hip : i = p
  · subst hip
    by_cases hlt : i < s.ptrs.length
    · simp [hlt, List.getElem?_set]
    · have hle : s.ptrs.length ≤ i := Nat.le_of_not_lt hlt
      have hle2 : (s.ptrs.set i v).length ≤ i := by simpa using hle
      simp [hlt, List.getElem?_eq_none hle, List.getElem?_eq_none hle2]
  · have hpi : p ≠ i := fun h => hip h.symm
    simp [hip, List.getElem?_set, hpi]

/-- What the instances hold after a new instance is appended. -/
theorem get_push (s : PtrState) (v : Option Nat) (d : List Nat) (n i : Nat) :
    get { ptrs := s.ptrs ++ [v], destroyed := d, next := n } i
      = if i = s.ptrs.length then v else get s i := by
  unfold get
  by_cases hi : i = s.ptrs.length
  · subst hi; simp
  · rcases Nat.lt_or_gt_of_ne hi with hlt | hgt
    · simp [hi, List.getElem?_append_left hlt]
    · have h1 : (s.ptrs ++ [v]).length ≤ i := by simp; omega
      have h2 : s.ptrs.length ≤ i := by omega
      simp [hi, List.getElem?_eq_none h1, List.getElem?_eq_none h2]

/-- What the instances hold after `release` on instance `p`. -/
theorem get_release (s : PtrState) (p i : Nat) :
    get (release s p).2 i = if i = p then none else get s i := by
  have h := get_set s p none s.destroyed s.next i
  simp only [release]
  rw [h]
  by_cases hip : i = p
  · subst hip
    by_cases hlt : i < s.ptrs.length
    · simp [hlt]
    · have hle : s.ptrs.length ≤ i := Nat.le_of_not_lt hlt
      simp [hlt, get, List.getElem?_eq_none hle]
  · simp [hip]

/-- What the instances hold after `reset(ptr)` on instance `p`. -/
theorem get_reset_to (s : PtrState) (p : Nat) (v : Option Nat) (i : Nat) :
    get (reset_to s p v) i = if i = p ∧ p < s.ptrs.length then v else get s i := by
  unfold reset_to
  split
  · exact get_set s p v s.destroyed s.next i
  · exact get_set s p v _ s.next i

/-- The objects destroyed after `reset(ptr)` on instance `p`: those destroyed
before and the one the instance held. -/
theorem mem_destroyed_reset_to (s : PtrState) (p : Nat) (v : Option Nat) (a : Nat) :
    a ∈ (reset_to s p v).destroyed ↔ a ∈ s.destroyed ∨ get s p = some a := by
  unfold reset_to
  cases h : get s p with
  | none => simp
  | some old =>
    simp only [List.mem_cons, Option.some.injEq]
    constructor
    · rintro (h1 | h1)
      · exact Or.inr h1.symm
      · exact Or.inl h1
    · rintro (h1 | h1)
      · exact Or.inr h1
      · exact Or.inl h1.symm

/-- The allocation counter is not touched by `reset(ptr)`. -/
theorem next_reset_to (s : PtrState) (p : Nat) (v : Option Nat) :
    (reset_to s p v).next = s.next := by
  unfold reset_to
  split <;> rfl

/-- The invariant holds before any instance exists. -/
theorem inv_start : Inv start := by
  refine ⟨?_, ?_, ?_, ?_⟩
  · intro i j a h; simp [get, start] at h
  · intro i a h; simp [get, start] at h
  · intro i a h; simp [get, start] at h
  · intro a h; simp [start] at h

/-- Member `release()` keeps the invariant. -/
theorem inv_release (s : PtrState) (p : Nat) (h : Inv s) : Inv (release s p).2 := by
  obtain ⟨hex, hnd, hal, hda⟩ := h
  refine ⟨?_, ?_, ?_, hda⟩
  · intro i j a hi hj
    rw [get_release] at hi hj
    split at hi
    · simp at hi
    · split at hj
      · simp at hj
      · exact hex i j a hi hj
  · intro i a hi
    rw [get_release] at hi
    split at hi
    · simp at hi
    · exact hnd i a hi
  · intro i a hi
    rw [get_release] at hi
    split at hi
    · simp at hi
    · exact hal i a hi

/-- A new instance holding nothing keeps the invariant. -/
theorem inv_default_ctor (s : PtrState) (h : Inv s) : Inv (default_ctor s) := by
  obtain ⟨hex, hnd, hal, hda⟩ := h
  unfold default_ctor
  refine ⟨?_, ?_, ?_, hda⟩
  · intro i j a hi hj
    rw [get_push] at hi hj
    split at hi
    · simp at hi
    · split at hj
      · simp at hj
      · exact hex i j a hi hj
  · intro i a hi
    rw [get_push] at hi
    split at hi
    · simp at hi
    · exact hnd i a hi
  · intro i a hi
    rw [get_push] at hi
    split at hi
    · simp at hi
    · exact hal i a hi

/-- The function `make_exclusive` keeps the invariant: the new object is held by
the new instance only. -/
theorem inv_make_exclusive (s : PtrState) (h : Inv s) : Inv (make_exclusive s) := by
  obtain ⟨hex, hnd, hal, hda⟩ := h
  unfold make_exclusive
  refine ⟨?_, ?_, ?_, ?_⟩
  · intro i j a hi hj
    rw [get_push] at hi hj
    split at hi
    · split at hj
      · omega
      · have := hal j a hj
        simp at hi
        omega
    · split at hj
      · have := hal i a hi
        simp at hj
        omega
      · exact hex i j a hi hj
  · intro i a hi
    rw [get_push] at hi
    split at hi
    · simp at hi
      subst hi
      intro hmem
      exact Nat.lt_irrefl _ (hda _ hmem)
    · exact hnd i a hi
  · intro i a hi
    rw [get_push] at hi
    split at hi
    · simp at hi
      show a < s.next + 1
      omega
    · have := hal i a hi
      show a < s.next + 1
      omega
  · intro a hmem
    have := hda a hmem
    show a < s.next + 1
    omega

/-- Member `reset(ptr)` with the pointer just released from instance `o` keeps the
invariant: this is the body of every assignment from another instance. -/
theorem inv_transfer (s : PtrState) (t o : Nat) (h : Inv s) :
    Inv (reset_to (release s o).2 t (release s o).1) := by
  obtain ⟨hex, hnd, hal, hda⟩ := h
  have hfst : (release s o).1 = get s o := rfl
  have hlen : (release s o).2.ptrs.length = s.ptrs.length := by simp [release]
  have hdes : (release s o).2.destroyed = s.destroyed := rfl
  have hnext : (release s o).2.next = s.next := rfl
  have hget : ∀ i, get (reset_to (release s o).2 t (release s o).1) i
      = if i = t ∧ t < s.ptrs.length then get s o else if i = o then none else get s i := by
    intro i
    rw [get_reset_to, get_release, hfst, hlen]
  have hheld : ∀ i a, get (reset_to (release s o).2 t (release s o).1) i = some a →
      (i = t ∧ get s o = some a) ∨ (i ≠ t ∧ i ≠ o ∧ get s i = some a) := by
    intro i a hi
    rw [hget] at hi
    split at hi
    · rename_i hc; exact Or.inl ⟨hc.1, hi⟩
    · rename_i hc
      split at hi
      · simp at hi
      · rename_i hio
        refine Or.inr ⟨?_, hio, hi⟩
        intro hit
        exact hc ⟨hit, hit ▸ get_lt s i a hi⟩
  refine ⟨?_, ?_, ?_, ?_⟩
  · intro i j a hi hj
    rcases hheld i a hi with ⟨hit, hia⟩ | ⟨hit, hio, hia⟩
    · rcases hheld j a hj with ⟨hjt, _⟩ | ⟨_, hjo, hja⟩
      · rw [hit, hjt]
      · exact absurd (hex j o a hja hia) hjo
    · rcases hheld j a hj with ⟨_, hja⟩ | ⟨hjt, hjo, hja⟩
      · exact absurd (hex i o a hia hja) hio
      · exact hex i j a hia hja
  · intro i a hi hmem
    rw [mem_destroyed_reset_to, hdes, get_release] at hmem
    rcases hmem with hmem | hmem
    · rcases hheld i a hi with ⟨_, hia⟩ | ⟨_, _, hia⟩
      · exact hnd o a hia hmem
      · exact hnd i a hia hmem
    · split at hmem
      · simp at hmem
      · rename_i hto
        rcases hheld i a hi with ⟨_, hia⟩ | ⟨hit, _, hia⟩
        · exact hto (hex t o a hmem hia)
        · exact hit (hex i t a hia hmem)
  · intro i a hi
    rw [next_reset_to, hnext]
    rcases hheld i a hi with ⟨_, hia⟩ | ⟨_, _, hia⟩
    · exact hal o a hia
    · exact hal i a hia
  · intro a hmem
    rw [next_reset_to, hnext]
    rw [mem_destroyed_reset_to, hdes, get_release] at hmem
    rcases hmem with hmem | hmem
    · exact hda a hmem
    · split at hmem
      · simp at hmem
      · exact hal t a hmem

/-- Member `reset()` keeps the invariant. -/
theorem inv_reset (s : PtrState) (t : Nat) (h : Inv s) : Inv (reset_to s t none) := by
  obtain ⟨hex, hnd, hal, hda⟩ := h
  have hheld : ∀ i a, get (reset_to s t none) i = some a → i ≠ t ∧ get s i = some a := by
    intro i a hi
    rw [get_reset_to] at hi
    split at hi
    · simp at hi
    · rename_i hc
      exact ⟨fun hit => hc ⟨hit, hit ▸ get_lt s i a hi⟩, hi⟩
  refine ⟨?_, ?_, ?_, ?_⟩
  · intro i j a hi hj
    exact hex i j a (hheld i a hi).2 (hheld j a hj).2
  · intro i a hi hmem
    rw [mem_destroyed_reset_to] at hmem
    rcases hmem with hmem | hmem
    · exact hnd i a (hheld i a hi).2 hmem
    · exact (hheld i a hi).1 (hex i t a (hheld i a hi).2 hmem)
  · intro i a hi
    rw [next_reset_to]
    exact hal i a (hheld i a hi).2
  · intro a hmem
    rw [next_reset_to]
    rw [mem_destroyed_reset_to] at hmem
    rcases hmem with hmem | hmem
    · exact hda a hmem
    · exact hal t a hmem

/-- A new instance built from the pointer released from instance `o` keeps the
invariant: this is the body of the copy and move constructors. -/
theorem inv_construct_from (s : PtrState) (o : Nat) (h : Inv s) :
    Inv { (release s o).2 with ptrs := (release s o).2.ptrs ++ [(release s o).1] } := by
  obtain ⟨hex, hnd, hal, hda⟩ := h
  have hlen : (release s o).2.ptrs.length = s.ptrs.length := by simp [release]
  have hheld : ∀ i a,
      get { (release s o).2 with ptrs := (release s o).2.ptrs ++ [(release s o).1] } i = some a →
      (i = s.ptrs.length ∧ get s o = some a) ∨ (i ≠ s.ptrs.length ∧ i ≠ o ∧ get s i = some a) := by
    intro i a hi
    rw [get_push, hlen, get_release] at hi
    split at hi
    · rename_i hc; exact Or.inl ⟨hc, hi⟩
    · rename_i hc
      split at hi
      · simp at hi
      · rename_i hio; exact Or.inr ⟨hc, hio, hi⟩
  refine ⟨?_, ?_, ?_, hda⟩
  · intro i j a hi hj
    rcases hheld i a hi with ⟨hit, hia⟩ | ⟨hit, hio, hia⟩
    · rcases hheld j a hj with ⟨hjt, _⟩ | ⟨_, hjo, hja⟩
      · rw [hit, hjt]
      · exact absurd (hex j o a hja hia) hjo
    · rcases hheld j a hj with ⟨_, hja⟩ | ⟨hjt, hjo, hja⟩
      · exact absurd (hex i o a hia hja) hio
      · exact hex i j a hia hja
  · intro i a hi
    rcases hheld i a hi with ⟨_, hia⟩ | ⟨_, _, hia⟩
    · exact hnd o a hia
    · exact hnd i a hia
  · intro i a hi
    rcases hheld i a hi with ⟨_, hia⟩ | ⟨_, _, hia⟩
    · exact hal o a hia
    · exact hal i a hia

/-- Every operation keeps the invariant. -/
theorem inv_step (s : PtrState) (op : PtrOp) (h : Inv s) : Inv (step s op) := by
  cases op with
  | default_ctor => exact inv_default_ctor s h
  | make_exclusive => exact inv_make_exclusive s h
  | copy_ctor other => exact inv_construct_from s other h
  | move_ctor other => exact inv_construct_from s other h
  | copy_assign this other => exact inv_transfer s this other h
  | move_assign this other => exact inv_transfer s this other h
  | assign_nullptr this => exact inv_reset s this h
  | reset this => exact inv_reset s this h
  | release this => exact inv_release s this h

/-- Every sequence of operations keeps the invariant. -/
theorem inv_run (ops : List PtrOp) (s : PtrState) (h : Inv s) : Inv (run s ops) := by
  induction ops generalizing s with
  | nil => exact h
  | cons op rest ih => exact ih (step s op) (inv_step s op h)

/-- Writing back what a list holds at a position leaves it as it was. -/
theorem set_getD_self (l : List (Option Nat)) (p : Nat) : l.set p (l.getD p none) = l := by
  induction l generalizing p with
  | nil => rfl
  | cons x xs ih =>
    cases p with
    | zero => rfl
    | succ n =>
      have h := ih n
      simp only [List.set_cons_succ, List.getD_cons_succ]
      rw [h]

/-- Assigning an instance to itself changes nothing. -/
theorem self_assign_eq (s : PtrState) (p : Nat) :
    reset_to (release s p).2 p (release s p).1 = s := by
  have hnone : get (release s p).2 p = none := by rw [get_release]; simp
  have hptrs : (s.ptrs.set p none).set p (get s p) = s.ptrs := by
    rw [List.set_set]
    exact set_getD_self s.ptrs p
  unfold reset_to
  rw [hnone]
  simp only [release]
  rw [hptrs]

/-- C8: copying transfers ownership.  Copy construction from any `source`, the
only instance included, gives a new instance (index `s.ptrs.length`) holding
exactly what `source` held, leaves `source` holding nothing and destroys nothing.
Copy assignment of an existing `target` from a distinct `source` leaves `target`
holding exactly what `source` held, `source` holding nothing, and the object
`target` held before destroyed. -/
theorem copy_transfers_ownership (s : PtrState) (target source : Nat) :
    (get (copy_ctor s source) s.ptrs.length = get s source
        ∧ get (copy_ctor s source) source = none
        ∧ (copy_ctor s source).destroyed = s.destroyed)
      ∧ (target < s.ptrs.length → target ≠ source →
          get (copy_assign s target source) target = get s source
            ∧ get (copy_assign s target source) source = none
            ∧ ∀ a, get s target = some a → a ∈ (copy_assign s target source).destroyed) := by
  have hlen : (release s source).2.ptrs.length = s.ptrs.length := by simp [release]
  have hfst : (release s source).1 = get s source := rfl
  refine ⟨⟨?_, ?_, rfl⟩, ?_⟩
  · unfold copy_ctor
    simp only []
    rw [get_push, hlen, hfst]
    simp
  · unfold copy_ctor
    simp only []
    rw [get_push, hlen, get_release, hfst]
    by_cases hsl : source = s.ptrs.length
    · have hle : s.ptrs.length ≤ source := Nat.le_of_eq hsl.symm
      simp [hsl, get, List.getElem?_eq_none]
    · simp [hsl]
  · intro htarget hne
    refine ⟨?_, ?_, ?_⟩
    · unfold copy_assign
      simp only []
      rw [get_reset_to, hlen, hfst]
      simp [htarget]
    · unfold copy_assign
      simp only []
      rw [get_reset_to, hlen, get_release]
      have : ¬ (source = target ∧ target < s.ptrs.length) := fun h => hne h.1.symm
      simp [this]
    · intro a ha
      unfold copy_assign
      simp only []
      rw [mem_destroyed_reset_to, get_release]
      right
      simp [hne, ha]

/-- Witness of C8: with a single owner, a new instance is copy-constructed from
instance 0; with two owners, instance 0 is copy-assigned from instance 1 and a
new instance is copy-constructed from instance 1. -/
theorem copy_transfers_ownership_witness :
    (get (copy_ctor oneOwner 0) 1 = some 0
        ∧ get (copy_ctor oneOwner 0) 0 = none
        ∧ (copy_ctor oneOwner 0).destroyed = [])
      ∧ get (copy_assign twoOwners 0 1) 0 = some 1
      ∧ get (copy_assign twoOwners 0 1) 1 = none
      ∧ 0 ∈ (copy_assign twoOwners 0 1).destroyed
      ∧ get (copy_ctor twoOwners 1) 2 = some 1
      ∧ get (copy_ctor twoOwners 1) 1 = none := by
  have h1 := copy_transfers_ownership oneOwner 0 0
  have h := copy_transfers_ownership twoOwners 0 1
  have ha := h.2 (by decide) (by decide)
  exact ⟨h1.1, ha.1, ha.2.1, ha.2.2 0 rfl, h.1.1, h.1.2.1⟩

/-- C10: after any finite sequence of constructions (empty, `make_exclusive`, copy,
move), assignments (copy, move, of `nullptr`), `reset()` and `release()`, no object
is held by two distinct instances and no instance holds a destroyed object; and
assigning an instance to itself leaves the whole state as it was, so the instance
holds the same object and that object is not destroyed. -/
theorem exclusivity_invariant (ops : List PtrOp) (p : Nat) :
    Exclusive (run start ops)
      ∧ NoneDestroyed (run start ops)
      ∧ copy_assign (run start ops) p p = run start ops
      ∧ move_assign (run start ops) p p = run start ops
      ∧ ∀ a, get (run start ops) p = some a →
          get (copy_assign (run start ops) p p) p = some a
            ∧ a ∉ (copy_assign (run start ops) p p).destroyed
            ∧ get (move_assign (run start ops) p p) p = some a
            ∧ a ∉ (move_assign (run start ops) p p).destroyed := by
  obtain ⟨hex, hnd, -, -⟩ := inv_run ops start inv_start
  have hc : copy_assign (run start ops) p p = run start ops := self_assign_eq _ p
  have hm : move_assign (run start ops) p p = run start ops := self_assign_eq _ p
  refine ⟨hex, hnd, hc, hm, ?_⟩
  intro a ha
  rw [hc, hm]
  exact ⟨ha, hnd p a ha, ha, hnd p a ha⟩

end exclusive_ptr

end starrocks
